import Mathlib

/-!
# katago_http: session lifecycle and GTP framing

A shallow embedding of `main.go`: the four HTTP handlers (`startGame`,
`playMove`, `genMove`, `endGame`) and the framing routine `sendGTP`, over an
explicit state made of the package-level variables and of the engine
processes the server has created.

Conventions.

* A Go string is the list of its code points (`Str`).
* The engine is a black box: a process is created with the whole text it is
  going to print on its standard output; reading past the end of that text is
  the end-of-file condition of a process that has exited.
* `sendGTP` contains a `for` loop with no bound.  The loop is modelled with a
  fuel argument counting iterations; `none` means that the handler has not
  returned.  Every result about a returned value is stated for all sufficiently
  large fuel.  A call through a `nil` handle, which panics, is `none` as well;
  the session invariant rules it out in the reachable states.
* The body of a request is represented by what `ShouldBindJSON` makes of it:
  either the error or the decoded parameters.
* The lock `gameLock` makes the handlers run one after the other: a handler is
  a function from the state before it to the state after it.

The file has three parts: the embedding of the source, the vocabulary used to
state the properties (lines, terminal lines, the session invariant, the
scenarios), and the lemmas and theorems.
-/

namespace KatagoHttp

/-- Go strings, seen as the sequence of their code points. -/
abbrev Str := List Char

/-! ## The pieces of the Go standard library that the handlers call -/

/-- The predicate `unicode.IsSpace`: the Latin-1 cases and the `White_Space` table. -/
def isSpace (c : Char) : Bool :=
  let n := c.toNat
  (9 ≤ n && n ≤ 13) || n == 0x20 || n == 0x85 || n == 0xA0 || n == 0x1680 ||
    (0x2000 ≤ n && n ≤ 0x200a) || n == 0x2028 || n == 0x2029 || n == 0x202f ||
    n == 0x205f || n == 0x3000

/-- The function `strings.TrimLeftFunc`. -/
def TrimLeftFunc (s : Str) (f : Char → Bool) : Str :=
  s.dropWhile f

/-- The function `strings.TrimRightFunc`. -/
def TrimRightFunc (s : Str) (f : Char → Bool) : Str :=
  (s.reverse.dropWhile f).reverse

/-- The function `strings.TrimFunc`: both ends. -/
def TrimFunc (s : Str) (f : Char → Bool) : Str :=
  TrimRightFunc (TrimLeftFunc s f) f

/-- The function `strings.TrimSpace`. -/
def TrimSpace (s : Str) : Str :=
  TrimFunc s isSpace

/-- The function `strings.Trim`: removes the leading and trailing code points found in `cutset`. -/
def Trim (s cutset : Str) : Str :=
  TrimFunc s (fun c => cutset.contains c)

/-- The function `strings.HasPrefix`. -/
def HasPrefix (s pre : Str) : Bool :=
  pre.isPrefixOf s

/-- The method `(*bufio.Reader).ReadString`: the text up to and including the first
`delim`, whether the end of the input was hit before a `delim` (the `error`
result), and what is left in the reader. -/
def ReadString (delim : Char) : Str → Str × Bool × Str
  | [] => ([], true, [])
  | c :: cs =>
    if c = delim then ([c], false, cs)
    else
      let r := ReadString delim cs
      (c :: r.1, r.2.1, r.2.2)

/-! ## State -/

/-- One `exec.Cmd` created by the server, together with its two pipes. -/
structure Proc where
  /-- the command line -/
  args : List Str
  /-- `Start` has succeeded -/
  started : Bool
  /-- `Process.Kill` has been called -/
  killed : Bool
  /-- bytes written so far to the standard input pipe -/
  inp : Str
  /-- bytes not yet read from the standard output pipe -/
  out : Str
deriving DecidableEq, Repr

/-- The package-level variables of `main.go`, and the processes created so far.
A handle is the index of a process in `procs`; `none` is `nil`. -/
structure State where
  procs : List Proc
  katago : Option Nat
  stdin : Option Nat
  stdout : Option Nat
  gameOn : Bool
deriving DecidableEq, Repr

/-- The state of a freshly started server. -/
def State.init : State :=
  { procs := [], katago := none, stdin := none, stdout := none, gameOn := false }

/-- What `c.JSON(status, gin.H{...})` sends. -/
structure Reply where
  status : Nat
  body : List (String × Str)
deriving DecidableEq, Repr

/-- Applies `f` to the process with handle `i`. -/
def updProc (f : Proc → Proc) : Nat → List Proc → List Proc
  | _, [] => []
  | 0, p :: ps => f p :: ps
  | i + 1, p :: ps => p :: updProc f i ps

/-- A process is live when it was started and has not been killed. -/
def Proc.live (p : Proc) : Bool :=
  p.started && !p.killed

/-- Number of live engine processes. -/
def State.liveCount (s : State) : Nat :=
  (s.procs.filter Proc.live).length

/-! ## sendGTP -/

/-- The `for` loop of `sendGTP` (lines 75-82): `out` is what the reader still
holds, `resp` the builder.  Returns the builder and the reader after the
`break`. -/
def readLoop : Nat → Str → Str → Option (Str × Str)
  | 0, _, _ => none
  | fuel + 1, out, resp =>
    let r := ReadString '\n' out
    let line := r.1
    if HasPrefix line ['='] || HasPrefix line ['?'] then
      some (resp ++ line, r.2.2)
    else
      readLoop fuel r.2.2 (resp ++ line)

/-- The function `sendGTP` (lines 72-84).  A `nil` pipe makes the call panic, which is
`none` as well. -/
def sendGTP (fuel : Nat) (s : State) (cmd : Str) : Option (State × Str) :=
  match s.stdin, s.stdout with
  | some i, some o =>
    let ps := updProc (fun p => { p with inp := p.inp ++ (cmd ++ ['\n']) }) i s.procs
    match ps[o]? with
    | none => none
    | some p =>
      match readLoop fuel p.out [] with
      | none => none
      | some (resp, rest) =>
        some ({ s with procs := updProc (fun q => { q with out := rest }) o ps },
              TrimSpace resp)
  | _, _ => none

/-! ## Requests -/

/-- The value of the `Komi` field.  It is a `float64` in the source and is used only
through `fmt.Sprintf("komi %.1f", ...)`: it is represented by what that text
depends on, its sign and its magnitude rounded to tenths (JSON carries neither
an infinity nor a NaN). -/
structure KomiValue where
  negative : Bool
  tenths : Nat
deriving DecidableEq, Repr

/-- The text `fmt.Sprintf("%.1f", k)`: an optional minus sign, the integer part, a
point, one decimal. -/
def KomiValue.format (k : KomiValue) : Str :=
  (if k.negative then ['-'] else []) ++ (toString (k.tenths / 10)).toList ++ ['.'] ++
    (toString (k.tenths % 10)).toList

/-- The `params` struct of `startGame`. -/
structure StartParams where
  BoardSize : Int
  Komi : KomiValue
  Config : Str
  Model : Str
deriving DecidableEq, Repr

/-- The `params` struct of `playMove`. -/
structure PlayParams where
  Color : Str
  Move : Str
deriving DecidableEq, Repr

/-- The `params` struct of `genMove`. -/
structure GenParams where
  Color : Str
deriving DecidableEq, Repr

/-- What the operating system answers when `startGame` sets up a process: the
error of `StdinPipe`, of `StdoutPipe` and of `Start` if any, and the text the
process prints on its standard output once started. -/
structure Launch where
  stdinPipeErr : Option Str
  stdoutPipeErr : Option Str
  startErr : Option Str
  output : Str
deriving DecidableEq, Repr

/-- The reply `c.JSON(status, gin.H{"error": msg})`. -/
def errorReply (status : Nat) (msg : Str) : Reply :=
  { status := status, body := [("error", msg)] }

/-- The command `fmt.Sprintf("boardsize %d", n)`. -/
def boardsizeCmd (n : Int) : Str :=
  "boardsize ".toList ++ (toString n).toList

/-- The command `fmt.Sprintf("komi %.1f", k)`. -/
def komiCmd (k : KomiValue) : Str :=
  "komi ".toList ++ k.format

/-- The command `fmt.Sprintf("play %s %s", color, move)`. -/
def playCmd (color move : Str) : Str :=
  "play ".toList ++ color ++ " ".toList ++ move

/-- The command `fmt.Sprintf("genmove %s", color)`. -/
def genmoveCmd (color : Str) : Str :=
  "genmove ".toList ++ color

/-! ## Handlers -/

/-- The handler `startGame` (lines 23-70). -/
def startGame (fuel : Nat) (s : State) (body : Except Str StartParams) (env : Launch) :
    Option (State × Reply) :=
  if s.gameOn then
    some (s, errorReply 400 "Game already running".toList)
  else
    match body with
    | .error e => some (s, errorReply 400 e)
    | .ok params =>
      let k := s.procs.length
      let cmd : Proc :=
        { args := ["./katago".toList, "gtp".toList, "-model".toList, params.Model,
                   "-config".toList, params.Config],
          started := false, killed := false, inp := [], out := env.output }
      let s1 := { s with procs := s.procs ++ [cmd], katago := some k }
      match env.stdinPipeErr with
      | some e => some ({ s1 with stdin := none }, errorReply 500 e)
      | none =>
        let s2 := { s1 with stdin := some k }
        match env.stdoutPipeErr with
        | some e => some (s2, errorReply 500 e)
        | none =>
          let s3 := { s2 with stdout := some k }
          match env.startErr with
          | some e => some (s3, errorReply 500 e)
          | none =>
            let s4 := { s3 with procs := updProc (fun p => { p with started := true }) k s3.procs }
            match sendGTP fuel s4 (boardsizeCmd params.BoardSize) with
            | none => none
            | some (s5, _) =>
              match sendGTP fuel s5 (komiCmd params.Komi) with
              | none => none
              | some (s6, _) =>
                match sendGTP fuel s6 "clear_board".toList with
                | none => none
                | some (s7, _) =>
                  some ({ s7 with gameOn := true },
                        { status := 200, body := [("message", "Game started".toList)] })

/-- The handler `playMove` (lines 86-113). -/
def playMove (fuel : Nat) (s : State) (body : Except Str PlayParams) :
    Option (State × Reply) :=
  if !s.gameOn then
    some (s, errorReply 400 "No game running".toList)
  else
    match body with
    | .error e => some (s, errorReply 400 e)
    | .ok params =>
      match sendGTP fuel s (playCmd params.Color params.Move) with
      | none => none
      | some (s1, resp) =>
        if HasPrefix resp ['?'] then
          some (s1, errorReply 400 resp)
        else
          some (s1, { status := 200,
                      body := [("message", "Move played".toList), ("response", resp)] })

/-- The handler `genMove` (lines 115-141). -/
def genMove (fuel : Nat) (s : State) (body : Except Str GenParams) :
    Option (State × Reply) :=
  if !s.gameOn then
    some (s, errorReply 400 "No game running".toList)
  else
    match body with
    | .error e => some (s, errorReply 400 e)
    | .ok params =>
      match sendGTP fuel s (genmoveCmd params.Color) with
      | none => none
      | some (s1, resp) =>
        if HasPrefix resp ['?'] then
          some (s1, errorReply 400 resp)
        else
          some (s1, { status := 200,
                      body := [("message", "Move generated".toList),
                               ("move", Trim resp "= ".toList)] })

/-- The call `katago.Process.Kill()`: `Process` is `nil`, and the call panics, unless
the command was started. -/
def killProc (s : State) (k : Nat) : Option State :=
  match s.procs[k]? with
  | none => none
  | some p =>
    if p.started then
      some { s with procs := updProc (fun q => { q with killed := true }) k s.procs }
    else none

/-- The handler `endGame` (lines 143-155). -/
def endGame (fuel : Nat) (s : State) : Option (State × Reply) :=
  let done : Reply := { status := 200, body := [("message", "Game ended".toList)] }
  match s.gameOn, s.katago with
  | true, some k =>
    match sendGTP fuel s "quit".toList with
    | none => none
    | some (s1, _) =>
      match killProc s1 k with
      | none => none
      | some s2 => some ({ s2 with katago := none, gameOn := false }, done)
  | _, _ => some (s, done)

/-! ## Sequences of requests -/

/-- One request to the server, with what the environment contributes to it. -/
inductive Op where
  | start (body : Except Str StartParams) (env : Launch)
  | play (body : Except Str PlayParams)
  | genmove (body : Except Str GenParams)
  | stop
deriving Repr

/-- Runs the handler of a request. -/
def step (fuel : Nat) (s : State) : Op → Option (State × Reply)
  | .start body env => startGame fuel s body env
  | .play body => playMove fuel s body
  | .genmove body => genMove fuel s body
  | .stop => endGame fuel s

/-- The states the server can be in between two requests: the initial one, and
any state in which a handler has returned from a reachable state. -/
inductive Reachable : State → Prop where
  | init : Reachable State.init
  | step {s s1 : State} {r : Reply} (fuel : Nat) (op : Op) :
      Reachable s → step fuel s op = some (s1, r) → Reachable s1

/-! ## Vocabulary of the specification -/

/-- The lines of a text: each ends with its newline, except possibly the last. -/
def lines : Str → List Str
  | [] => []
  | c :: cs =>
    if c = '\n' then [c] :: lines cs
    else
      match lines cs with
      | [] => [[c]]
      | l :: ls => (c :: l) :: ls

/-- A terminal line: its first character is the success marker `=` or the failure
marker `?`. -/
def isTerminal : Str → Bool
  | [] => false
  | c :: _ => c == '=' || c == '?'

/-- A line made of white space only. -/
def isBlank (l : Str) : Bool :=
  l.all isSpace

/-- The text that the three setup exchanges of `startGame` write to the engine. -/
def setupText (n : Int) (komi : KomiValue) : Str :=
  boardsizeCmd n ++ ['\n'] ++ komiCmd komi ++ ['\n'] ++ "clear_board".toList ++ ['\n']

/-- The session invariant.  With no active session no engine process is live.
With an active session the three package-level handles designate one process,
which was started, has not been killed, has received the setup commands first,
and is the only live process. -/
def SessionInv (s : State) : Prop :=
  (s.gameOn = false → ∀ q ∈ s.procs, q.live = false) ∧
  (s.gameOn = true → ∃ k p, s.katago = some k ∧ s.stdin = some k ∧ s.stdout = some k ∧
    s.procs[k]? = some p ∧ p.started = true ∧ p.killed = false ∧
    (∀ j q, j ≠ k → s.procs[j]? = some q → q.live = false) ∧
    ∃ n komi later, setupText n komi ++ later = p.inp)

/-- The state after one exchange with the process `i`, which was `p`: `cmd` and a
newline have been appended to its input, `rest` is what is left of its output;
nothing else has changed. -/
def exchanged (s : State) (i : Nat) (p : Proc) (cmd rest : Str) : State :=
  { s with procs := s.procs.set i { p with inp := p.inp ++ cmd ++ ['\n'], out := rest } }

/-- The command that `startGame` builds at line 44. -/
def newCmd (params : StartParams) (env : Launch) : Proc :=
  { args := ["./katago".toList, "gtp".toList, "-model".toList, params.Model,
             "-config".toList, params.Config],
    started := false, killed := false, inp := [], out := env.output }

/-- The state of `startGame` after `katago.Start()` has succeeded (line 62), from a
state `s` with no active session. -/
def launched (s : State) (params : StartParams) (env : Launch) : State :=
  { procs := s.procs ++ [{ newCmd params env with started := true }],
    katago := some s.procs.length, stdin := some s.procs.length,
    stdout := some s.procs.length, gameOn := false }

/-- The engine process of a session that `startGame` has set up: started, with the
setup text in its input and `rest` left of its output. -/
def startedProc (params : StartParams) (env : Launch) (rest : Str) : Proc :=
  { newCmd params env with
    started := true, inp := setupText params.BoardSize params.Komi, out := rest }

/-- The state in which `startGame` returns "Game started", from `s`: the new process is
the last one, it has received the setup text and `rest` is left of its output. -/
def started (s : State) (params : StartParams) (env : Launch) (rest : Str) : State :=
  { procs := s.procs ++ [startedProc params env rest],
    katago := some s.procs.length, stdin := some s.procs.length,
    stdout := some s.procs.length, gameOn := true }

/-- The state in which `endGame` returns from an active session on the process `k`,
which was `p`: `quit` was written, `rest` is what is left of the output, the
process is killed, the handle `katago` and the flag are cleared. -/
def ended (s : State) (k : Nat) (p : Proc) (rest : Str) : State :=
  { s with
    procs := s.procs.set k
      { p with inp := p.inp ++ "quit".toList ++ ['\n'], out := rest, killed := true },
    katago := none, gameOn := false }

/-- The reply of a successful `startGame`. -/
def gameStarted : Reply :=
  { status := 200, body := [("message", "Game started".toList)] }

/-- The reply of `playMove` when the engine has not rejected the move. -/
def movePlayed (resp : Str) : Reply :=
  { status := 200, body := [("message", "Move played".toList), ("response", resp)] }

/-- The reply of `genMove` when the engine has not rejected the request. -/
def moveGenerated (move : Str) : Reply :=
  { status := 200, body := [("message", "Move generated".toList), ("move", move)] }

/-- The reply of `endGame`. -/
def gameEnded : Reply :=
  { status := 200, body := [("message", "Game ended".toList)] }

/-- The move token as the specification words it: the response without its leading
success marker, then stripped of the white space around it. -/
def moveToken (resp : Str) : Str :=
  TrimSpace (match resp with
    | '=' :: r => r
    | r => r)

/-! ## Scenarios -/

/-- The request body of the scenario of the specification: board 19, komi 7.5. -/
def demoParams : StartParams :=
  { BoardSize := 19, Komi := ⟨false, 75⟩, Config := "c.cfg".toList, Model := "m.bin".toList }

/-- A launch that succeeds, of an engine that answers each of the three setup commands
with `= ` and a blank line, then prints `reply` and exits. -/
def scenarioLaunch (reply : Str) : Launch :=
  { stdinPipeErr := none, stdoutPipeErr := none, startErr := none,
    output := "= \n\n= \n\n= \n\n".toList ++ reply }

/-- The engine process after the start of the scenario: the blank line that ends the
third setup reply is still in the pipe, before `reply`. -/
def scenarioProc (reply : Str) : Proc :=
  startedProc demoParams (scenarioLaunch reply) ('\n' :: reply)

/-- The state after `startGame` has answered "Game started" to the request of the
scenario, on a freshly started server. -/
def scenario (reply : Str) : State :=
  started State.init demoParams (scenarioLaunch reply) ('\n' :: reply)

/-- A request for a board of size 0. -/
def zeroParams : StartParams :=
  { BoardSize := 0, Komi := ⟨false, 75⟩, Config := "c.cfg".toList, Model := "m.bin".toList }

/-- A launch that succeeds, of an engine that rejects the board size and accepts the
next two commands. -/
def rejectingLaunch : Launch :=
  { stdinPipeErr := none, stdoutPipeErr := none, startErr := none,
    output := "? unacceptable size\n\n= \n\n= \n\n".toList }

/-! ## Lemmas on the library functions -/

theorem hasPrefix_singleton (l : Str) (c : Char) :
    HasPrefix l [c] = (l.head? == some c) := by
  cases l with
  | nil => simp [HasPrefix, List.isPrefixOf]
  | cons a l =>
    simp [HasPrefix, List.isPrefixOf]
    constructor <;> intro h <;> exact h.symm

theorem terminal_test (l : Str) :
    (HasPrefix l ['='] || HasPrefix l ['?']) = isTerminal l := by
  cases l with
  | nil => simp [HasPrefix, List.isPrefixOf, isTerminal]
  | cons a l =>
    have h1 : ('=' == a) = (a == '=') := Bool.beq_comm
    have h2 : ('?' == a) = (a == '?') := Bool.beq_comm
    simp [HasPrefix, List.isPrefixOf, isTerminal, h1, h2]

theorem lines_cons_eq (c : Char) (cs : Str) :
    lines (c :: cs) =
      (ReadString '\n' (c :: cs)).1 :: lines (ReadString '\n' (c :: cs)).2.2 := by
  induction cs generalizing c with
  | nil =>
    by_cases h : c = '\n' <;> simp [lines, ReadString, h]
  | cons d ds ih =>
    by_cases h : c = '\n'
    · simp [lines, ReadString, h]
    · have := ih d
      rw [lines, if_neg h, this]
      simp [ReadString, h]

theorem flatten_lines (s : Str) : (lines s).flatten = s := by
  induction s with
  | nil => simp [lines]
  | cons c cs ih =>
    by_cases h : c = '\n'
    · simp [lines, h, ih]
    · rw [lines, if_neg h]
      cases hl : lines cs with
      | nil => rw [hl] at ih; simp at ih; simp [← ih]
      | cons l ls => rw [hl] at ih; simp at ih; simp [← ih]

theorem lines_readString (out : Str) :
    lines (ReadString '\n' out).2.2 = (lines out).tail := by
  cases out with
  | nil => simp [ReadString, lines]
  | cons c cs => rw [lines_cons_eq]; simp

theorem readString_line (out : Str) :
    (ReadString '\n' out).1 = ((lines out).head?).getD [] := by
  cases out with
  | nil => simp [ReadString, lines]
  | cons c cs => rw [lines_cons_eq]; simp

/-! ## Decimal text has no newline -/

theorem digitChar_ne_newline (d : Nat) (h : d < 10) : Nat.digitChar d ≠ '\n' := by
  interval_cases d <;> decide

theorem toDigitsCore_no_newline (fuel n : Nat) (acc : List Char) (h : '\n' ∉ acc) :
    '\n' ∉ Nat.toDigitsCore 10 fuel n acc := by
  induction fuel generalizing n acc with
  | zero => simpa [Nat.toDigitsCore] using h
  | succ k ih =>
    have hd : '\n' ∉ Nat.digitChar (n % 10) :: acc := by
      simp only [List.mem_cons, not_or]
      exact ⟨fun e => digitChar_ne_newline (n % 10) (Nat.mod_lt _ (by omega)) e.symm, h⟩
    rw [Nat.toDigitsCore]
    split
    · exact hd
    · exact ih _ _ hd

theorem nat_repr_no_newline (n : Nat) : '\n' ∉ (Nat.repr n).toList := by
  simp only [Nat.repr, Nat.toDigits, String.toList, List.asString]
  exact toDigitsCore_no_newline _ _ _ (by simp)

theorem int_toString_no_newline (n : Int) : '\n' ∉ (toString n).toList := by
  cases n with
  | ofNat m => exact nat_repr_no_newline m
  | negSucc m =>
    show '\n' ∉ ("-" ++ Nat.repr (m + 1)).toList
    simp only [String.toList, String.data_append, List.mem_append, not_or]
    exact ⟨by decide, nat_repr_no_newline (m + 1)⟩

theorem boardsizeCmd_no_newline (n : Int) : '\n' ∉ boardsizeCmd n := by
  simp only [boardsizeCmd, List.mem_append, not_or]
  exact ⟨by decide, int_toString_no_newline n⟩

theorem komiCmd_no_newline (k : KomiValue) : '\n' ∉ komiCmd k := by
  simp only [komiCmd, KomiValue.format, List.mem_append, not_or]
  refine ⟨by decide, ⟨⟨?_, nat_repr_no_newline _⟩, by decide⟩, nat_repr_no_newline _⟩
  cases k.negative <;> decide

/-! ## The shape of lines -/

theorem lines_complete_append (body X : Str) (h : '\n' ∉ body) :
    lines (body ++ '\n' :: X) = (body ++ ['\n']) :: lines X := by
  induction body with
  | nil => simp [lines]
  | cons c b ih =>
    simp only [List.mem_cons, not_or] at h
    have hc : c ≠ '\n' := fun e => h.1 e.symm
    rw [List.cons_append, lines, if_neg hc, ih h.2]
    simp

/-- The setup text is made of three lines, whatever follows it. -/
theorem lines_setupText (n : Int) (k : KomiValue) (later : Str) :
    lines (setupText n k ++ later) =
      (boardsizeCmd n ++ ['\n']) :: (komiCmd k ++ ['\n']) ::
        ("clear_board".toList ++ ['\n']) :: lines later := by
  have e : setupText n k ++ later =
      boardsizeCmd n ++ '\n' :: (komiCmd k ++ '\n' :: ("clear_board".toList ++ '\n' :: later)) := by
    simp [setupText]
  rw [e, lines_complete_append _ _ (boardsizeCmd_no_newline n),
    lines_complete_append _ _ (komiCmd_no_newline k),
    lines_complete_append _ _ (by decide)]

/-! ## Trimming -/

theorem trimRight_eq_nil_iff (b : Str) (f : Char → Bool) :
    TrimRightFunc b f = [] ↔ ∀ c ∈ b, f c = true := by
  simp [TrimRightFunc, List.dropWhile_eq_nil_iff]

theorem trimRight_append (a b : Str) (f : Char → Bool) :
    TrimRightFunc (a ++ b) f =
      if TrimRightFunc b f = [] then TrimRightFunc a f else a ++ TrimRightFunc b f := by
  unfold TrimRightFunc
  rw [List.reverse_append, List.dropWhile_append]
  by_cases h : List.dropWhile f b.reverse = []
  · simp [h]
  · have : (List.dropWhile f b.reverse).isEmpty = false := by
      cases hd : List.dropWhile f b.reverse with
      | nil => exact absurd hd h
      | cons _ _ => rfl
    simp [h, this]

theorem trimRight_cons (m : Char) (u : Str) (f : Char → Bool) (hm : f m = false) :
    TrimRightFunc (m :: u) f = m :: TrimRightFunc u f := by
  have := trimRight_append [m] u f
  simp only [List.singleton_append] at this
  rw [this]
  split
  · rename_i h
    rw [h]
    simp [TrimRightFunc, hm]
  · rfl

theorem trimLeft_append_of_head (a : Str) (m : Char) (u : Str) (f : Char → Bool)
    (hm : f m = false) :
    TrimLeftFunc (a ++ m :: u) f = TrimLeftFunc a f ++ m :: u := by
  unfold TrimLeftFunc
  rw [List.dropWhile_append]
  split
  · rename_i h
    simp at h
    have : List.dropWhile f a = [] := by simpa [List.dropWhile_eq_nil_iff] using h
    simp [this, hm]
  · rfl

theorem trim_append_of_head (a : Str) (m : Char) (u : Str) (f : Char → Bool)
    (hm : f m = false) :
    TrimFunc (a ++ m :: u) f = TrimLeftFunc a f ++ m :: TrimRightFunc u f := by
  unfold TrimFunc
  rw [trimLeft_append_of_head a m u f hm, trimRight_append, trimRight_cons m u f hm]
  simp
theorem hasPrefix_cons (m : Char) (u : Str) (c : Char) :
    HasPrefix (m :: u) [c] = (m == c) := by
  rw [hasPrefix_singleton]
  simp

theorem isSpace_of_isTerminal (m : Char) (u : Str) (h : isTerminal (m :: u) = true) :
    isSpace m = false := by
  simp only [isTerminal, Bool.or_eq_true, beq_iff_eq] at h
  rcases h with h | h <;> rw [h] <;> decide

/-- The block returned for the lines `pre` followed by a terminal line: the leading
white space of the text of `pre` and the trailing white space of the terminal
line are removed. -/
theorem trimSpace_block (a : Str) (m : Char) (u : Str)
    (h : isTerminal (m :: u) = true) :
    TrimSpace (a ++ m :: u) = TrimLeftFunc a isSpace ++ m :: TrimRightFunc u isSpace :=
  trim_append_of_head a m u isSpace (isSpace_of_isTerminal m u h)

theorem trimLeft_all (a : Str) (f : Char → Bool) (h : ∀ c ∈ a, f c = true) :
    TrimLeftFunc a f = [] := by
  simpa [TrimLeftFunc, List.dropWhile_eq_nil_iff] using h

theorem flatten_all_blank (pre : List Str) (h : ∀ l ∈ pre, isBlank l = true) :
    ∀ c ∈ pre.flatten, isSpace c = true := by
  intro c hc
  obtain ⟨l, hl, hcl⟩ := List.mem_flatten.mp hc
  have := h l hl
  simp only [isBlank, List.all_eq_true] at this
  exact this c hcl

theorem trimRight_self (m : Str) (f : Char → Bool)
    (h : ∀ c, m.getLast? = some c → f c = false) : TrimRightFunc m f = m := by
  unfold TrimRightFunc
  cases hr : m.reverse with
  | nil => simp at hr; simp [hr]
  | cons x u =>
    have hx : m.getLast? = some x := by
      rw [List.getLast?_eq_head?_reverse, hr]
      rfl
    rw [List.dropWhile_cons_of_neg (by simp [h x hx]), ← hr, List.reverse_reverse]

/-- The function `TrimFunc` splits its argument: what it removes in front and at the
back satisfies `f`, what it returns neither begins nor ends with such a
character. -/
theorem trim_decompose (s : Str) (f : Char → Bool) :
    ∃ a b, s = a ++ TrimFunc s f ++ b ∧ (∀ c ∈ a, f c = true) ∧ (∀ c ∈ b, f c = true) ∧
      (∀ c, (TrimFunc s f).head? = some c → f c = false) ∧
      (∀ c, (TrimFunc s f).getLast? = some c → f c = false) := by
  refine ⟨s.takeWhile f, ((s.dropWhile f).reverse.takeWhile f).reverse, ?_, ?_, ?_, ?_, ?_⟩
  · have h1 : (s.dropWhile f) =
        TrimFunc s f ++ ((s.dropWhile f).reverse.takeWhile f).reverse := by
      have := List.takeWhile_append_dropWhile f (s.dropWhile f).reverse
      have h2 := congrArg List.reverse this
      rw [List.reverse_append, List.reverse_reverse] at h2
      exact h2.symm
    rw [List.append_assoc, ← h1]
    simp
  · intro c hc
    exact (List.mem_takeWhile_imp hc)
  · intro c hc
    rw [List.mem_reverse] at hc
    exact (List.mem_takeWhile_imp hc)
  · intro c hc
    cases hd : s.dropWhile f with
    | nil => simp [TrimFunc, TrimLeftFunc, TrimRightFunc, hd] at hc
    | cons m u =>
      have hm : f m = false := by
        have := List.head?_dropWhile_not f s
        rw [hd] at this
        simpa using this
      simp only [TrimFunc, TrimLeftFunc, hd] at hc
      rw [trimRight_cons m u f hm] at hc
      simp at hc
      rw [← hc]
      exact hm
  · intro c hc
    simp only [TrimFunc, TrimRightFunc, TrimLeftFunc] at hc
    rw [List.getLast?_reverse] at hc
    have := List.head?_dropWhile_not f (s.dropWhile f).reverse
    rw [hc] at this
    simpa using this

/-- What `TrimFunc` returns is determined by the properties of `trim_decompose`. -/
theorem trim_eq_of (a m b : Str) (f : Char → Bool)
    (ha : ∀ c ∈ a, f c = true) (hb : ∀ c ∈ b, f c = true)
    (hh : ∀ c, m.head? = some c → f c = false)
    (hl : ∀ c, m.getLast? = some c → f c = false) :
    TrimFunc (a ++ m ++ b) f = m := by
  cases m with
  | nil =>
    have hall : ∀ c ∈ a ++ [] ++ b, f c = true := by
      intro c hc
      simp at hc
      rcases hc with hc | hc
      · exact ha c hc
      · exact hb c hc
    unfold TrimFunc
    rw [trimLeft_all _ f hall]
    rfl
  | cons x u =>
    have hx : f x = false := hh x rfl
    have e : a ++ x :: u ++ b = a ++ x :: (u ++ b) := by simp
    unfold TrimFunc
    rw [e, trimLeft_append_of_head a x (u ++ b) f hx, trimLeft_all a f ha]
    have e2 : [] ++ x :: (u ++ b) = (x :: u) ++ b := by simp
    rw [e2, trimRight_append, if_pos ((trimRight_eq_nil_iff b f).mpr hb)]
    exact trimRight_self _ f hl

theorem cutset_contains (c : Char) :
    ("= ".toList.contains c) = true ↔ (c = '=' ∨ c = ' ') := by
  simp [String.toList]

theorem cutset_not_contains (c : Char) :
    ("= ".toList.contains c) = false ↔ (c ≠ '=' ∧ c ≠ ' ') := by
  rw [← Bool.not_eq_true, cutset_contains]
  push_neg
  rfl

theorem readLoop_succ (fuel : Nat) (out resp : Str) :
    readLoop (fuel + 1) out resp =
      if isTerminal (ReadString '\n' out).1 then
        some (resp ++ (ReadString '\n' out).1, (ReadString '\n' out).2.2)
      else readLoop fuel (ReadString '\n' out).2.2 (resp ++ (ReadString '\n' out).1) := by
  simp only [readLoop, terminal_test]

/-- The loop stops at the first terminal line: it has accumulated the lines up to
and including that one and has left the following ones in the reader. -/
theorem readLoop_lines (pre : List Str) (t : Str) (post : List Str) (out : Str)
    (hl : lines out = pre ++ t :: post) (hpre : ∀ l ∈ pre, isTerminal l = false)
    (ht : isTerminal t = true) (n : Nat) (resp : Str) :
    readLoop (pre.length + 1 + n) out resp =
      some (resp ++ (pre ++ [t]).flatten, post.flatten) := by
  induction pre generalizing out resp with
  | nil =>
    have h1 := readString_line out
    have h2 := lines_readString out
    rw [hl] at h1 h2
    simp at h1 h2
    have h3 := flatten_lines (ReadString '\n' out).2.2
    rw [h2] at h3
    have : 0 + 1 + n = n + 1 := by omega
    simp only [List.length_nil, this, readLoop_succ, h1, ht, if_true, ← h3]
    simp
  | cons l pre ih =>
    have h1 := readString_line out
    have h2 := lines_readString out
    rw [hl] at h1 h2
    simp at h1 h2
    have hl0 : isTerminal l = false := hpre l (by simp)
    have : (l :: pre).length + 1 + n = (pre.length + 1 + n) + 1 := by simp; omega
    rw [this, readLoop_succ, h1, hl0]
    simp only [Bool.false_eq_true, if_false]
    rw [ih _ h2 (fun x hx => hpre x (by simp [hx]))]
    simp

/-- Without a terminal line the loop never exits, whatever the number of iterations. -/
theorem readLoop_none (fuel : Nat) (out resp : Str)
    (h : ∀ l ∈ lines out, isTerminal l = false) :
    readLoop fuel out resp = none := by
  induction fuel generalizing out resp with
  | zero => rfl
  | succ k ih =>
    have h1 := readString_line out
    have h2 := lines_readString out
    have hno : isTerminal (ReadString '\n' out).1 = false := by
      rw [h1]
      cases hlo : lines out with
      | nil => simp [isTerminal]
      | cons l ls => simp; exact h l (by simp [hlo])
    rw [readLoop_succ, hno]
    simp only [Bool.false_eq_true, if_false]
    apply ih
    intro l hl
    rw [h2] at hl
    exact h l (List.mem_of_mem_tail hl)

theorem readLoop_mono (fuel n : Nat) (out resp : Str) (a : Str × Str)
    (h : readLoop fuel out resp = some a) : readLoop (fuel + n) out resp = some a := by
  induction fuel generalizing out resp with
  | zero => simp [readLoop] at h
  | succ k ih =>
    have e : k + 1 + n = (k + n) + 1 := by omega
    rw [e, readLoop_succ]
    rw [readLoop_succ] at h
    split
    · rename_i hterm
      rw [if_pos hterm] at h
      exact h
    · rename_i hterm
      rw [if_neg hterm] at h
      exact ih _ _ h

theorem lines_flatten_suffix (pre post : List Str) (out : Str)
    (h : lines out = pre ++ post) : lines post.flatten = post := by
  induction pre generalizing out with
  | nil =>
    simp at h
    rw [← h, flatten_lines]
  | cons l pre ih =>
    have h2 := lines_readString out
    rw [h] at h2
    simp at h2
    exact ih _ h2

theorem exists_first_terminal (ls : List Str) (h : ∃ l ∈ ls, isTerminal l = true) :
    ∃ pre t post, ls = pre ++ t :: post ∧ (∀ l ∈ pre, isTerminal l = false) ∧
      isTerminal t = true := by
  induction ls with
  | nil => simp at h
  | cons a ls ih =>
    by_cases ha : isTerminal a = true
    · exact ⟨[], a, ls, by simp, by simp, ha⟩
    · have h2 : ∃ l ∈ ls, isTerminal l = true := by
        obtain ⟨l, hl, hlt⟩ := h
        rcases List.mem_cons.mp hl with rfl | hl
        · exact absurd hlt ha
        · exact ⟨l, hl, hlt⟩
      obtain ⟨pre, t, post, e, hpre, ht⟩ := ih h2
      refine ⟨a :: pre, t, post, by simp [e], ?_, ht⟩
      intro l hl
      rcases List.mem_cons.mp hl with rfl | hl
      · simpa using ha
      · exact hpre l hl

/-- When the loop exits, it has stopped at the first terminal line of the output. -/
theorem readLoop_some (fuel : Nat) (out x o : Str)
    (h : readLoop fuel out [] = some (x, o)) :
    ∃ pre t post, lines out = pre ++ t :: post ∧ (∀ l ∈ pre, isTerminal l = false) ∧
      isTerminal t = true ∧ x = (pre ++ [t]).flatten ∧ o = post.flatten := by
  by_cases hterm : ∃ l ∈ lines out, isTerminal l = true
  · obtain ⟨pre, t, post, hl, hpre, ht⟩ := exists_first_terminal _ hterm
    have h1 := readLoop_lines pre t post out hl hpre ht fuel []
    have h2 := readLoop_mono fuel (pre.length + 1) out [] _ h
    have e : fuel + (pre.length + 1) = pre.length + 1 + fuel := by omega
    rw [e, h1] at h2
    simp only [List.nil_append, Option.some.injEq, Prod.mk.injEq] at h2
    exact ⟨pre, t, post, hl, hpre, ht, h2.1.symm, h2.2.symm⟩
  · have hno : ∀ l ∈ lines out, isTerminal l = false := by
      intro l hl
      cases hb : isTerminal l with
      | false => rfl
      | true => exact absurd ⟨l, hl, hb⟩ hterm
    rw [readLoop_none fuel out [] hno] at h
    simp at h

/-- Each exchange that returns takes exactly one terminal line from the output. -/
theorem readLoop_count (fuel : Nat) (out x o : Str)
    (h : readLoop fuel out [] = some (x, o)) :
    (lines out).countP isTerminal = (lines o).countP isTerminal + 1 := by
  obtain ⟨pre, t, post, hl, hpre, ht, _, ho⟩ := readLoop_some fuel out x o h
  have hpost : lines post.flatten = post :=
    lines_flatten_suffix (pre ++ [t]) post out (by simp [hl])
  have hzero : pre.countP isTerminal = 0 := by
    rw [List.countP_eq_zero]
    intro l hl
    simp [hpre l hl]
  rw [ho, hpost, hl, List.countP_append, List.countP_cons, hzero, if_pos ht]
  omega

/-- Three exchanges in a row that return have each stopped at a terminal line: the
output begins with three groups of lines, each ended by its first terminal
line. -/
theorem three_replies (fuel : Nat) (out x1 o1 x2 o2 x3 o3 : Str)
    (h1 : readLoop fuel out [] = some (x1, o1)) (h2 : readLoop fuel o1 [] = some (x2, o2))
    (h3 : readLoop fuel o2 [] = some (x3, o3)) :
    ∃ pre1 t1 pre2 t2 pre3 t3 post,
      lines out = pre1 ++ t1 :: (pre2 ++ t2 :: (pre3 ++ t3 :: post)) ∧
      (∀ l ∈ pre1 ++ pre2 ++ pre3, isTerminal l = false) ∧
      isTerminal t1 = true ∧ isTerminal t2 = true ∧ isTerminal t3 = true ∧
      o3 = post.flatten := by
  obtain ⟨pre1, t1, post1, hl1, hp1, ht1, _, ho1⟩ := readLoop_some fuel out x1 o1 h1
  obtain ⟨pre2, t2, post2, hl2, hp2, ht2, _, ho2⟩ := readLoop_some fuel o1 x2 o2 h2
  obtain ⟨pre3, t3, post3, hl3, hp3, ht3, _, ho3⟩ := readLoop_some fuel o2 x3 o3 h3
  have e1 : lines o1 = post1 := by
    rw [ho1]
    exact lines_flatten_suffix (pre1 ++ [t1]) post1 out (by simp [hl1])
  have e2 : lines o2 = post2 := by
    rw [ho2]
    exact lines_flatten_suffix (pre2 ++ [t2]) post2 o1 (by simp [hl2])
  rw [e1] at hl2
  rw [e2] at hl3
  refine ⟨pre1, t1, pre2, t2, pre3, t3, post3, by rw [hl1, hl2, hl3], ?_, ht1, ht2, ht3, ho3⟩
  intro l hl
  simp only [List.mem_append] at hl
  rcases hl with (hl | hl) | hl
  · exact hp1 l hl
  · exact hp2 l hl
  · exact hp3 l hl

/-! ## sendGTP on a state -/

theorem updProc_eq_set (f : Proc → Proc) (i : Nat) (ps : List Proc) (p : Proc)
    (h : ps[i]? = some p) : updProc f i ps = ps.set i (f p) := by
  induction ps generalizing i with
  | nil => simp at h
  | cons a ps ih =>
    cases i with
    | zero => simp at h; simp [updProc, h]
    | succ i => simp at h; simp [updProc, ih i h]

theorem getElem?_set_self_of_some (ps : List Proc) (i : Nat) (p q : Proc)
    (h : ps[i]? = some p) : (ps.set i q)[i]? = some q := by
  have hlt : i < ps.length := by
    by_contra hc
    rw [List.getElem?_eq_none (by omega)] at h
    exact absurd h (by simp)
  simp [List.getElem?_set, hlt]

/-- The function `sendGTP` when both pipes belong to the process `i`: the command and a
newline are appended to the input of `i`, the loop runs on its output. -/
theorem sendGTP_eq (fuel : Nat) (s : State) (cmd : Str) (i : Nat) (p : Proc)
    (hin : s.stdin = some i) (hout : s.stdout = some i) (hp : s.procs[i]? = some p) :
    sendGTP fuel s cmd =
      match readLoop fuel p.out [] with
      | none => none
      | some (resp, rest) =>
        some (exchanged s i p cmd rest, TrimSpace resp) := by
  unfold sendGTP
  rw [hin, hout]
  simp only []
  rw [updProc_eq_set _ i s.procs p hp, getElem?_set_self_of_some _ i p _ hp]
  simp only []
  cases readLoop fuel p.out [] with
  | none => rfl
  | some x =>
    obtain ⟨resp, rest⟩ := x
    simp only []
    rw [updProc_eq_set _ i _ _ (getElem?_set_self_of_some _ i p _ hp)]
    simp [List.set_set, exchanged, hin, hout]

theorem sendGTP_some (fuel : Nat) (s s1 : State) (cmd r : Str) (i : Nat) (p : Proc)
    (hin : s.stdin = some i) (hout : s.stdout = some i) (hp : s.procs[i]? = some p)
    (h : sendGTP fuel s cmd = some (s1, r)) :
    ∃ resp rest, readLoop fuel p.out [] = some (resp, rest) ∧
      s1 = exchanged s i p cmd rest ∧ r = TrimSpace resp := by
  rw [sendGTP_eq fuel s cmd i p hin hout hp] at h
  cases hr : readLoop fuel p.out [] with
  | none => rw [hr] at h; simp at h
  | some x =>
    obtain ⟨resp, rest⟩ := x
    rw [hr] at h
    simp at h
    exact ⟨resp, rest, rfl, h.1.symm, h.2.symm⟩

theorem exchanged_getElem?_self (s : State) (i : Nat) (p : Proc) (cmd rest : Str)
    (hp : s.procs[i]? = some p) :
    (exchanged s i p cmd rest).procs[i]? =
      some { p with inp := p.inp ++ cmd ++ ['\n'], out := rest } :=
  getElem?_set_self_of_some _ i p _ hp

theorem exchanged_getElem?_ne (s : State) (i j : Nat) (p : Proc) (cmd rest : Str)
    (hj : j ≠ i) : (exchanged s i p cmd rest).procs[j]? = s.procs[j]? := by
  simp [exchanged, List.getElem?_set, Ne.symm hj]

/-- An exchange keeps the session invariant of an active session. -/
theorem SessionInv_exchanged (s : State) (i : Nat) (p : Proc) (cmd rest : Str)
    (hon : s.gameOn = true) (hk : s.katago = some i)
    (hin : s.stdin = some i) (hout : s.stdout = some i) (hp : s.procs[i]? = some p)
    (hinv : SessionInv s) : SessionInv (exchanged s i p cmd rest) := by
  obtain ⟨_, h2⟩ := hinv
  obtain ⟨k, p1, hk1, _, _, hp1, hst, hkl, hoth, n, komi, hpre⟩ := h2 hon
  have hki : k = i := by rw [hk] at hk1; simpa using hk1.symm
  subst hki
  have hpp : p1 = p := by rw [hp] at hp1; simpa using hp1.symm
  subst hpp
  constructor
  · intro hoff
    have : s.gameOn = false := hoff
    rw [hon] at this
    exact absurd this (by simp)
  · intro _
    refine ⟨k, _, hk, hin, hout, exchanged_getElem?_self s k p1 cmd rest hp, hst, hkl, ?_, n, komi, ?_⟩
    · intro j q hj hq
      rw [exchanged_getElem?_ne s k j p1 cmd rest hj] at hq
      exact hoth j q hj hq
    · obtain ⟨t, ht⟩ := hpre
      exact ⟨t ++ cmd ++ ['\n'], by simp [← ht]⟩

theorem sendGTP_active (fuel : Nat) (s s1 : State) (cmd r : Str)
    (hon : s.gameOn = true) (hinv : SessionInv s)
    (h : sendGTP fuel s cmd = some (s1, r)) :
    SessionInv s1 ∧ s1.gameOn = true ∧ s1.katago = s.katago := by
  obtain ⟨k, p, hk, hin, hout, hp, _⟩ := hinv.2 hon
  obtain ⟨resp, rest, _, hs1, _⟩ := sendGTP_some fuel s s1 cmd r k p hin hout hp h
  subst hs1
  exact ⟨SessionInv_exchanged s k p cmd rest hon hk hin hout hp hinv, hon, rfl⟩

theorem playMove_inv (fuel : Nat) (s s1 : State) (body : Except Str PlayParams) (r : Reply)
    (hinv : SessionInv s) (h : playMove fuel s body = some (s1, r)) : SessionInv s1 := by
  unfold playMove at h
  cases hon : s.gameOn with
  | false => simp [hon] at h; rw [← h.1]; exact hinv
  | true =>
    simp only [hon, Bool.not_true, Bool.false_eq_true, if_false] at h
    cases body with
    | error e => simp at h; rw [← h.1]; exact hinv
    | ok params =>
      simp only [] at h
      cases hs : sendGTP fuel s (playCmd params.Color params.Move) with
      | none => rw [hs] at h; simp at h
      | some x =>
        obtain ⟨s2, resp⟩ := x
        rw [hs] at h
        have := (sendGTP_active fuel s s2 _ resp hon hinv hs).1
        simp only [] at h
        split at h <;> simp at h <;> rw [← h.1] <;> exact this

theorem genMove_inv (fuel : Nat) (s s1 : State) (body : Except Str GenParams) (r : Reply)
    (hinv : SessionInv s) (h : genMove fuel s body = some (s1, r)) : SessionInv s1 := by
  unfold genMove at h
  cases hon : s.gameOn with
  | false => simp [hon] at h; rw [← h.1]; exact hinv
  | true =>
    simp only [hon, Bool.not_true, Bool.false_eq_true, if_false] at h
    cases body with
    | error e => simp at h; rw [← h.1]; exact hinv
    | ok params =>
      simp only [] at h
      cases hs : sendGTP fuel s (genmoveCmd params.Color) with
      | none => rw [hs] at h; simp at h
      | some x =>
        obtain ⟨s2, resp⟩ := x
        rw [hs] at h
        have := (sendGTP_active fuel s s2 _ resp hon hinv hs).1
        simp only [] at h
        split at h <;> simp at h <;> rw [← h.1] <;> exact this

theorem updProc_of_length_le (f : Proc → Proc) (ps : List Proc) (j : Nat)
    (h : ps.length ≤ j) : updProc f j ps = ps := by
  induction ps generalizing j with
  | nil => cases j <;> rfl
  | cons a ps ih =>
    cases j with
    | zero => simp at h
    | succ j => simp at h; simp [updProc, ih j h]

theorem length_le_of_getElem?_none (ps : List Proc) (k : Nat) (h : ps[k]? = none) :
    ps.length ≤ k := by
  by_contra hc
  rw [List.getElem?_eq_getElem (by omega)] at h
  simp at h

theorem updProc_live_false (ps : List Proc) (k : Nat) (f : Proc → Proc)
    (hk : ∀ q, ps[k]? = some q → (f q).live = false)
    (hoth : ∀ j q, j ≠ k → ps[j]? = some q → q.live = false) :
    ∀ q ∈ updProc f k ps, q.live = false := by
  intro q hq
  obtain ⟨j, hj⟩ := List.getElem?_of_mem hq
  cases hp : ps[k]? with
  | none =>
    rw [updProc_of_length_le f ps k (length_le_of_getElem?_none ps k hp)] at hj
    by_cases hjk : j = k
    · rw [hjk, hp] at hj
      simp at hj
    · exact hoth j q hjk hj
  | some p =>
    rw [updProc_eq_set f k ps p hp] at hj
    by_cases hjk : j = k
    · rw [hjk, getElem?_set_self_of_some ps k p _ hp] at hj
      simp at hj
      rw [← hj]
      exact hk p hp
    · rw [List.getElem?_set_ne (Ne.symm hjk)] at hj
      exact hoth j q hjk hj

theorem endGame_inv (fuel : Nat) (s s1 : State) (r : Reply)
    (hinv : SessionInv s) (h : endGame fuel s = some (s1, r)) :
    SessionInv s1 ∧ s1.gameOn = false := by
  unfold endGame at h
  cases hon : s.gameOn with
  | false =>
    simp [hon] at h
    rw [← h.1]
    exact ⟨hinv, hon⟩
  | true =>
    obtain ⟨k, p, hk, hin, hout, hp, hst, hkl, hoth, _⟩ := hinv.2 hon
    simp only [hon, hk] at h
    cases hs : sendGTP fuel s "quit".toList with
    | none => rw [hs] at h; simp at h
    | some x =>
      obtain ⟨s2, resp⟩ := x
      rw [hs] at h
      simp only [] at h
      obtain ⟨resp0, rest, _, hs2, _⟩ := sendGTP_some fuel s s2 _ resp k p hin hout hp hs
      have hp2 := exchanged_getElem?_self s k p "quit".toList rest hp
      rw [← hs2] at hp2
      simp only [killProc, hp2, hst, if_true] at h
      simp at h
      rw [← h.1]
      refine ⟨⟨?_, ?_⟩, rfl⟩
      · intro _
        apply updProc_live_false s2.procs k _
        · intro q _
          simp [Proc.live]
        · intro j q hj hq
          rw [hs2, exchanged_getElem?_ne s k j p _ rest hj] at hq
          exact hoth j q hj hq
      · intro hc
        simp at hc

theorem updProc_append_length (f : Proc → Proc) (ps : List Proc) (c : Proc) :
    updProc f ps.length (ps ++ [c]) = ps ++ [f c] := by
  induction ps with
  | nil => rfl
  | cons a ps ih => simp [updProc, ih]

/-- The handler `startGame` once the process is running: the three setup exchanges from
the state `launched`, then the flag. -/
theorem startGame_launch (fuel : Nat) (s : State) (params : StartParams) (env : Launch)
    (hoff : s.gameOn = false) (h1 : env.stdinPipeErr = none)
    (h2 : env.stdoutPipeErr = none) (h3 : env.startErr = none) :
    startGame fuel s (.ok params) env =
      match sendGTP fuel (launched s params env) (boardsizeCmd params.BoardSize) with
      | none => none
      | some (s5, _) =>
        match sendGTP fuel s5 (komiCmd params.Komi) with
        | none => none
        | some (s6, _) =>
          match sendGTP fuel s6 "clear_board".toList with
          | none => none
          | some (s7, _) =>
            some ({ s7 with gameOn := true },
                  { status := 200, body := [("message", "Game started".toList)] }) := by
  unfold startGame
  simp only [hoff, h1, h2, h3, Bool.false_eq_true, if_false, updProc_append_length]
  rfl

theorem launched_getElem? (s : State) (params : StartParams) (env : Launch) :
    (launched s params env).procs[s.procs.length]? =
      some { newCmd params env with started := true } := by
  simp [launched]

theorem set_append_length (ps : List Proc) (c d : Proc) :
    (ps ++ [c]).set ps.length d = ps ++ [d] := by
  induction ps with
  | nil => rfl
  | cons a ps ih => simp [ih]

/-- When `startGame` returns after a successful launch, the three setup exchanges
have each found a terminal line, and the state is `started`. -/
theorem startGame_launch_some (fuel : Nat) (s s1 : State) (params : StartParams)
    (env : Launch) (r : Reply)
    (hoff : s.gameOn = false) (h1 : env.stdinPipeErr = none)
    (h2 : env.stdoutPipeErr = none) (h3 : env.startErr = none)
    (h : startGame fuel s (.ok params) env = some (s1, r)) :
    ∃ x1 o1 x2 o2 x3 o3, readLoop fuel env.output [] = some (x1, o1) ∧
      readLoop fuel o1 [] = some (x2, o2) ∧ readLoop fuel o2 [] = some (x3, o3) ∧
      s1 = started s params env o3 ∧
      r = { status := 200, body := [("message", "Game started".toList)] } := by
  rw [startGame_launch fuel s params env hoff h1 h2 h3] at h
  cases ha : sendGTP fuel (launched s params env) (boardsizeCmd params.BoardSize) with
  | none => rw [ha] at h; simp at h
  | some a =>
    obtain ⟨s5, b1⟩ := a
    rw [ha] at h
    simp only [] at h
    obtain ⟨x1, o1, hr1, e5, _⟩ := sendGTP_some fuel _ s5 _ b1 s.procs.length _ rfl rfl
      (launched_getElem? s params env) ha
    have hp5 := exchanged_getElem?_self _ s.procs.length _
      (boardsizeCmd params.BoardSize) o1 (launched_getElem? s params env)
    rw [← e5] at hp5
    have hi5 : s5.stdin = some s.procs.length := by rw [e5]; rfl
    have ho5 : s5.stdout = some s.procs.length := by rw [e5]; rfl
    cases hb : sendGTP fuel s5 (komiCmd params.Komi) with
    | none => rw [hb] at h; simp at h
    | some b =>
      obtain ⟨s6, b2⟩ := b
      rw [hb] at h
      simp only [] at h
      obtain ⟨x2, o2, hr2, e6, _⟩ := sendGTP_some fuel _ s6 _ b2 s.procs.length _ hi5 ho5 hp5 hb
      have hp6 := exchanged_getElem?_self _ s.procs.length _ (komiCmd params.Komi) o2 hp5
      rw [← e6] at hp6
      have hi6 : s6.stdin = some s.procs.length := by rw [e6]; exact hi5
      have ho6 : s6.stdout = some s.procs.length := by rw [e6]; exact ho5
      cases hc : sendGTP fuel s6 "clear_board".toList with
      | none => rw [hc] at h; simp at h
      | some c =>
        obtain ⟨s7, b3⟩ := c
        rw [hc] at h
        simp only [] at h
        obtain ⟨x3, o3, hr3, e7, _⟩ :=
          sendGTP_some fuel _ s7 _ b3 s.procs.length _ hi6 ho6 hp6 hc
        refine ⟨x1, o1, x2, o2, x3, o3, hr1, hr2, hr3, ?_, ?_⟩
        · simp at h
          rw [← h.1, e7, e6, e5]
          simp [exchanged, launched, started, startedProc, List.set_set, set_append_length,
            setupText, newCmd]
        · simp at h
          exact h.2.symm

theorem SessionInv_idle (s : State) (hoff : s.gameOn = false)
    (h : ∀ q ∈ s.procs, q.live = false) : SessionInv s := by
  refine ⟨fun _ => h, ?_⟩
  intro hon
  rw [hoff] at hon
  exact absurd hon (by simp)

theorem SessionInv_started (s : State) (params : StartParams) (env : Launch) (rest : Str)
    (hoff : s.gameOn = false) (hinv : SessionInv s) :
    SessionInv (started s params env rest) := by
  constructor
  · intro hc
    simp [started] at hc
  · intro _
    refine ⟨s.procs.length, startedProc params env rest,
      rfl, rfl, rfl, by simp [started], rfl, rfl, ?_,
      params.BoardSize, params.Komi, List.prefix_refl _⟩
    intro j q hj hq
    apply hinv.1 hoff
    simp only [started] at hq
    by_cases hlt : j < s.procs.length
    · rw [List.getElem?_append_left hlt] at hq
      exact List.mem_iff_getElem?.mpr ⟨j, hq⟩
    · rw [List.getElem?_append_right (by omega)] at hq
      have : j - s.procs.length ≠ 0 := by omega
      obtain ⟨m, hm⟩ := Nat.exists_eq_succ_of_ne_zero this
      rw [hm] at hq
      simp at hq

theorem startGame_inv (fuel : Nat) (s s1 : State) (body : Except Str StartParams)
    (env : Launch) (r : Reply)
    (hinv : SessionInv s) (h : startGame fuel s body env = some (s1, r)) : SessionInv s1 := by
  cases hon : s.gameOn with
  | true =>
    simp [startGame, hon] at h
    rw [← h.1]
    exact hinv
  | false =>
    cases body with
    | error e =>
      simp [startGame, hon] at h
      rw [← h.1]
      exact hinv
    | ok params =>
      have hnew : ∀ q ∈ s.procs ++ [newCmd params env], q.live = false := by
        intro q hq
        rcases List.mem_append.mp hq with hq | hq
        · exact hinv.1 hon q hq
        · simp at hq
          rw [hq]
          rfl
      cases h1 : env.stdinPipeErr with
      | some e =>
        simp [startGame, hon, h1] at h
        rw [← h.1]
        exact SessionInv_idle _ rfl hnew
      | none =>
        cases h2 : env.stdoutPipeErr with
        | some e =>
          simp [startGame, hon, h1, h2] at h
          rw [← h.1]
          exact SessionInv_idle _ rfl hnew
        | none =>
          cases h3 : env.startErr with
          | some e =>
            simp [startGame, hon, h1, h2, h3] at h
            rw [← h.1]
            exact SessionInv_idle _ rfl hnew
          | none =>
            obtain ⟨_, _, _, _, _, o3, _, _, _, e1, _⟩ :=
              startGame_launch_some fuel s s1 params env r hon h1 h2 h3 h
            rw [e1]
            exact SessionInv_started s params env o3 hon hinv

/-- The session invariant holds in every reachable state. -/
theorem reachable_inv (s : State) (h : Reachable s) : SessionInv s := by
  induction h with
  | init => exact SessionInv_idle _ rfl (by simp [State.init])
  | step fuel op _ hstep ih =>
    cases op with
    | start body env => exact startGame_inv fuel _ _ body env _ ih hstep
    | play body => exact playMove_inv fuel _ _ body _ ih hstep
    | genmove body => exact genMove_inv fuel _ _ body _ ih hstep
    | stop => exact (endGame_inv fuel _ _ _ ih hstep).1

theorem filter_live_le_one (ps : List Proc) (k : Nat)
    (h : ∀ j q, j ≠ k → ps[j]? = some q → q.live = false) :
    (ps.filter Proc.live).length ≤ 1 := by
  induction ps generalizing k with
  | nil => simp
  | cons a ps ih =>
    cases k with
    | zero =>
      have hall : ∀ q ∈ ps, q.live = false := by
        intro q hq
        obtain ⟨j, hj⟩ := List.mem_iff_getElem?.mp hq
        exact h (j + 1) q (by omega) (by simpa using hj)
      have : ps.filter Proc.live = [] := by
        rw [List.filter_eq_nil_iff]
        intro q hq
        simp [hall q hq]
      rw [List.filter_cons]
      split <;> simp [this]
    | succ k =>
      have ha : a.live = false := h 0 a (by omega) (by simp)
      rw [List.filter_cons]
      simp only [ha, Bool.false_eq_true, if_false]
      apply ih k
      intro j q hj hq
      exact h (j + 1) q (by omega) (by simpa using hq)

theorem liveCount_le_one (s : State) (hinv : SessionInv s) :
    s.liveCount ≤ 1 ∧ (s.gameOn = false → s.liveCount = 0) := by
  have hoff : s.gameOn = false → s.liveCount = 0 := by
    intro hoff
    have : s.procs.filter Proc.live = [] := by
      rw [List.filter_eq_nil_iff]
      intro q hq
      simp [hinv.1 hoff q hq]
    simp [State.liveCount, this]
  refine ⟨?_, hoff⟩
  cases hon : s.gameOn with
  | false => rw [hoff hon]; omega
  | true =>
    obtain ⟨k, _, _, _, _, _, _, _, hoth, _⟩ := hinv.2 hon
    exact filter_live_le_one s.procs k hoth

theorem endGame_active (fuel : Nat) (s : State) (k : Nat) (p : Proc) (x rest : Str)
    (hon : s.gameOn = true) (hk : s.katago = some k) (hin : s.stdin = some k)
    (hout : s.stdout = some k) (hp : s.procs[k]? = some p) (hst : p.started = true)
    (hr : readLoop fuel p.out [] = some (x, rest)) :
    endGame fuel s = some (ended s k p rest, gameEnded) := by
  unfold endGame
  simp only [hon, hk]
  rw [sendGTP_eq fuel s _ k p hin hout hp, hr]
  simp only [killProc, exchanged_getElem?_self s k p _ rest hp, hst, if_true]
  rw [updProc_eq_set _ k _ _ (exchanged_getElem?_self s k p _ rest hp)]
  simp [exchanged, ended, gameEnded, List.set_set]

theorem endGame_idle (fuel : Nat) (s : State) (hoff : s.gameOn = false) :
    endGame fuel s = some (s, gameEnded) := by
  simp [endGame, hoff, gameEnded]

theorem sendGTP_silent (fuel : Nat) (s : State) (cmd : Str) (k : Nat) (p : Proc)
    (hin : s.stdin = some k) (hout : s.stdout = some k) (hp : s.procs[k]? = some p)
    (hno : ∀ l ∈ lines p.out, isTerminal l = false) : sendGTP fuel s cmd = none := by
  rw [sendGTP_eq fuel s cmd k p hin hout hp, readLoop_none fuel p.out [] hno]

theorem endGame_silent (fuel : Nat) (s : State) (k : Nat) (p : Proc)
    (hon : s.gameOn = true) (hk : s.katago = some k) (hin : s.stdin = some k)
    (hout : s.stdout = some k) (hp : s.procs[k]? = some p)
    (hno : ∀ l ∈ lines p.out, isTerminal l = false) : endGame fuel s = none := by
  unfold endGame
  simp only [hon, hk]
  rw [sendGTP_silent fuel s _ k p hin hout hp hno]

/-- The state of the scenario is reachable: it is what `startGame` returns on a freshly
started server. -/
theorem scenario_reachable (reply : Str) : Reachable (scenario reply) :=
  @Reachable.step State.init (scenario reply) gameStarted 2
    (.start (.ok demoParams) (scenarioLaunch reply)) Reachable.init rfl

/-- The handler `playMove` with an active session and a well-formed body, on an engine
output whose first terminal line is `t`. -/
theorem playMove_eq (fuel : Nat) (s : State) (i : Nat) (p : Proc) (pp : PlayParams)
    (pre : List Str) (t : Str) (post : List Str)
    (hon : s.gameOn = true) (hin : s.stdin = some i) (hout : s.stdout = some i)
    (hp : s.procs[i]? = some p) (hl : lines p.out = pre ++ t :: post)
    (hpre : ∀ l ∈ pre, isTerminal l = false) (ht : isTerminal t = true)
    (hf : pre.length < fuel) :
    playMove fuel s (.ok pp) =
      some (exchanged s i p (playCmd pp.Color pp.Move) post.flatten,
            if HasPrefix (TrimSpace (pre ++ [t]).flatten) ['?'] then
              errorReply 400 (TrimSpace (pre ++ [t]).flatten)
            else movePlayed (TrimSpace (pre ++ [t]).flatten)) := by
  obtain ⟨n, hn⟩ : ∃ n, fuel = pre.length + 1 + n := ⟨fuel - (pre.length + 1), by omega⟩
  unfold playMove
  simp only [hon, Bool.not_true, Bool.false_eq_true, if_false]
  rw [sendGTP_eq fuel s _ i p hin hout hp, hn, readLoop_lines pre t post p.out hl hpre ht n []]
  simp only [List.nil_append]
  split <;> simp [movePlayed]

/-- The handler `genMove` with an active session and a well-formed body, on an engine
output whose first terminal line is `t`. -/
theorem genMove_eq (fuel : Nat) (s : State) (i : Nat) (p : Proc) (gp : GenParams)
    (pre : List Str) (t : Str) (post : List Str)
    (hon : s.gameOn = true) (hin : s.stdin = some i) (hout : s.stdout = some i)
    (hp : s.procs[i]? = some p) (hl : lines p.out = pre ++ t :: post)
    (hpre : ∀ l ∈ pre, isTerminal l = false) (ht : isTerminal t = true)
    (hf : pre.length < fuel) :
    genMove fuel s (.ok gp) =
      some (exchanged s i p (genmoveCmd gp.Color) post.flatten,
            if HasPrefix (TrimSpace (pre ++ [t]).flatten) ['?'] then
              errorReply 400 (TrimSpace (pre ++ [t]).flatten)
            else moveGenerated (Trim (TrimSpace (pre ++ [t]).flatten) "= ".toList)) := by
  obtain ⟨n, hn⟩ : ∃ n, fuel = pre.length + 1 + n := ⟨fuel - (pre.length + 1), by omega⟩
  unfold genMove
  simp only [hon, Bool.not_true, Bool.false_eq_true, if_false]
  rw [sendGTP_eq fuel s _ i p hin hout hp, hn, readLoop_lines pre t post p.out hl hpre ht n []]
  simp only [List.nil_append]
  split <;> simp [moveGenerated]

theorem hasPrefix_not_both (b : Str) (h : HasPrefix b ['='] = true) :
    HasPrefix b ['?'] = false := by
  cases b with
  | nil => simp [HasPrefix, List.isPrefixOf] at h
  | cons m u =>
    rw [hasPrefix_cons] at h ⊢
    have : m = '=' := by simpa using h
    rw [this]
    decide

/-! ## The claims -/

/-- C1: in every state with an active session `startGame` answers 400 "Game already
running" for every request body, launch outcome and fuel, and returns the
state as it was (no process created, nothing written, handles and flag
untouched); and in every reachable state at most one engine process is live. -/
theorem start_while_active_rejected :
    (∀ (fuel : Nat) (s : State) (body : Except Str StartParams) (env : Launch),
      s.gameOn = true →
      startGame fuel s body env =
        some (s, errorReply 400 "Game already running".toList)) ∧
    (∀ s : State, Reachable s → s.liveCount ≤ 1) := by
  constructor
  · intro fuel s body env hon
    simp [startGame, hon]
  · intro s hs
    exact (liveCount_le_one s (reachable_inv s hs)).1

/-- C1 on the scenario: a second start right after the first one. -/
theorem start_while_active_rejected_witness :
    (scenario "= Q16\n\n".toList).gameOn = true ∧
    startGame 0 (scenario "= Q16\n\n".toList) (.ok demoParams) (scenarioLaunch []) =
      some (scenario "= Q16\n\n".toList, errorReply 400 "Game already running".toList) ∧
    (scenario "= Q16\n\n".toList).liveCount ≤ 1 :=
  ⟨rfl,
   start_while_active_rejected.1 0 (scenario "= Q16\n\n".toList) (.ok demoParams)
     (scenarioLaunch []) rfl,
   start_while_active_rejected.2 (scenario "= Q16\n\n".toList) (scenario_reachable _)⟩

/-- C2: with no active session, `playMove` and `genMove` answer 400 "No game running"
for every request body and every fuel, and return the state as it was: nothing
is written to or read from any engine pipe. -/
theorem no_session_rejected (fuel : Nat) (s : State) (pb : Except Str PlayParams)
    (gb : Except Str GenParams) (h : s.gameOn = false) :
    playMove fuel s pb = some (s, errorReply 400 "No game running".toList) ∧
    genMove fuel s gb = some (s, errorReply 400 "No game running".toList) := by
  simp [playMove, genMove, h]

/-- C2 on a freshly started server, with a well-formed and with a malformed body. -/
theorem no_session_rejected_witness :
    State.init.gameOn = false ∧
    playMove 0 State.init (.ok ⟨"b".toList, "d4".toList⟩) =
      some (State.init, errorReply 400 "No game running".toList) ∧
    genMove 0 State.init (.error "EOF".toList) =
      some (State.init, errorReply 400 "No game running".toList) :=
  ⟨rfl, no_session_rejected 0 State.init (.ok ⟨"b".toList, "d4".toList⟩)
    (.error "EOF".toList) rfl⟩

/-- C3, counterexample: after a start whose engine answered the three setup commands
and then exited, the state is reachable and has an active session, and
`endGame` never returns from it: `quit` gets no terminal line. -/
theorem endGame_hangs_on_silent_engine :
    Reachable (scenario []) ∧ (scenario []).gameOn = true ∧
    ¬ ∃ fuel x, endGame fuel (scenario []) = some x := by
  refine ⟨scenario_reachable [], rfl, ?_⟩
  rintro ⟨fuel, x, hx⟩
  rw [endGame_silent fuel (scenario []) 0 (scenarioProc []) rfl rfl rfl rfl rfl
    (by decide)] at hx
  simp at hx

/-- C3, as amended: from every reachable state with no active session, and from every
reachable state with an active session whose engine still has a terminal line
to print, `endGame` returns 200 "Game ended" (for all fuel from some bound on)
and leaves no active session and no live process; called again it returns the
same reply for every fuel and returns the state as it is, and a `playMove`
after it answers 400 "No game running". -/
theorem endGame_idempotent (s : State) (hs : Reachable s)
    (hans : s.gameOn = true → ∃ k p, s.stdout = some k ∧ s.procs[k]? = some p ∧
      ∃ l ∈ lines p.out, isTerminal l = true) :
    ∃ n s1, (∀ fuel, n ≤ fuel → endGame fuel s = some (s1, gameEnded)) ∧
      s1.gameOn = false ∧ s1.liveCount = 0 ∧
      (∀ fuel, endGame fuel s1 = some (s1, gameEnded)) ∧
      ∀ fuel body, playMove fuel s1 body =
        some (s1, errorReply 400 "No game running".toList) := by
  have hinv := reachable_inv s hs
  cases hon : s.gameOn with
  | false =>
    refine ⟨0, s, fun fuel _ => endGame_idle fuel s hon, hon,
      (liveCount_le_one s hinv).2 hon, fun fuel => endGame_idle fuel s hon, ?_⟩
    intro fuel body
    simp [playMove, hon]
  | true =>
    obtain ⟨k, p, hk, hin, hout, hp, hst, _⟩ := hinv.2 hon
    obtain ⟨k1, p1, hout1, hp1, hterm⟩ := hans hon
    have hkk : k1 = k := by rw [hout] at hout1; simpa using hout1.symm
    subst hkk
    have hpp : p1 = p := by rw [hp] at hp1; simpa using hp1.symm
    subst hpp
    obtain ⟨pre, t, post, hl, hpre, ht⟩ := exists_first_terminal _ hterm
    have hend : ∀ fuel, pre.length + 1 ≤ fuel →
        endGame fuel s = some (ended s k1 p1 post.flatten, gameEnded) := by
      intro fuel hf
      obtain ⟨m, hm⟩ : ∃ m, fuel = pre.length + 1 + m := ⟨fuel - (pre.length + 1), by omega⟩
      rw [hm]
      exact endGame_active _ s k1 p1 _ _ hon hk hin hout hp hst
        (readLoop_lines pre t post p1.out hl hpre ht m [])
    have hinv1 := endGame_inv _ s _ _ hinv (hend (pre.length + 1) (Nat.le_refl _))
    refine ⟨pre.length + 1, ended s k1 p1 post.flatten, hend, rfl,
      (liveCount_le_one _ hinv1.1).2 rfl, fun fuel => endGame_idle fuel _ rfl, ?_⟩
    intro fuel body
    simp [playMove, ended]

/-- C3 on the scenario, with an engine that answers `quit`. -/
theorem endGame_idempotent_witness :
    ∃ n s1, (∀ fuel, n ≤ fuel → endGame fuel (scenario "= \n\n".toList) =
        some (s1, gameEnded)) ∧
      s1.gameOn = false ∧ s1.liveCount = 0 ∧
      (∀ fuel, endGame fuel s1 = some (s1, gameEnded)) ∧
      ∀ fuel body, playMove fuel s1 body =
        some (s1, errorReply 400 "No game running".toList) :=
  endGame_idempotent (scenario "= \n\n".toList) (scenario_reachable _)
    (fun _ => ⟨0, scenarioProc "= \n\n".toList, rfl, rfl, "= \n".toList,
      by decide, by decide⟩)

/-- C4: for every command and every engine output that contains a terminal line,
`sendGTP` appends the command and one newline to the engine input, takes from
the output the lines up to and including the first terminal line `t` (the
lines `post` after it stay in the reader), and returns the concatenation of the
lines taken, trimmed of leading and trailing white space. -/
theorem sendGTP_frames_exchange (s : State) (cmd : Str) (i : Nat) (p : Proc)
    (hin : s.stdin = some i) (hout : s.stdout = some i) (hp : s.procs[i]? = some p)
    (hterm : ∃ l ∈ lines p.out, isTerminal l = true) :
    ∃ pre t post, lines p.out = pre ++ t :: post ∧ (∀ l ∈ pre, isTerminal l = false) ∧
      isTerminal t = true ∧
      ∀ fuel, pre.length < fuel →
        sendGTP fuel s cmd =
          some (exchanged s i p cmd post.flatten, TrimSpace (pre ++ [t]).flatten) := by
  obtain ⟨pre, t, post, hl, hpre, ht⟩ := exists_first_terminal _ hterm
  refine ⟨pre, t, post, hl, hpre, ht, ?_⟩
  intro fuel hf
  obtain ⟨n, hn⟩ : ∃ n, fuel = pre.length + 1 + n := ⟨fuel - (pre.length + 1), by omega⟩
  rw [sendGTP_eq fuel s cmd i p hin hout hp, hn,
    readLoop_lines pre t post p.out hl hpre ht n []]
  simp

/-- C4 on the scenario, the engine printing `= Q16` and a blank line. -/
theorem sendGTP_frames_exchange_witness :
    ∃ pre t post, lines (scenarioProc "= Q16\n\n".toList).out = pre ++ t :: post ∧
      (∀ l ∈ pre, isTerminal l = false) ∧ isTerminal t = true ∧
      ∀ fuel, pre.length < fuel →
        sendGTP fuel (scenario "= Q16\n\n".toList) "genmove w".toList =
          some (exchanged (scenario "= Q16\n\n".toList) 0 (scenarioProc "= Q16\n\n".toList)
                  "genmove w".toList post.flatten,
                TrimSpace (pre ++ [t]).flatten) :=
  sendGTP_frames_exchange (scenario "= Q16\n\n".toList) "genmove w".toList 0
    (scenarioProc "= Q16\n\n".toList) rfl rfl rfl ⟨"= Q16\n".toList, by decide, by decide⟩

/-- C6: with an active session and a well-formed request, on an engine output whose
first terminal line is `t` (after the lines `pre`), `playMove` sends
`play <color> <move>` and returns; when the trimmed block begins with `=` the
reply has status 200 and the body `message: "Move played"`, `response:` the
block; when it begins with `?` the reply has status 400 and the body `error:`
the block. -/
theorem playMove_round_trip (fuel : Nat) (s : State) (i : Nat) (p : Proc) (pp : PlayParams)
    (pre : List Str) (t : Str) (post : List Str)
    (hon : s.gameOn = true) (hin : s.stdin = some i) (hout : s.stdout = some i)
    (hp : s.procs[i]? = some p) (hl : lines p.out = pre ++ t :: post)
    (hpre : ∀ l ∈ pre, isTerminal l = false) (ht : isTerminal t = true)
    (hf : pre.length < fuel) :
    (HasPrefix (TrimSpace (pre ++ [t]).flatten) ['='] = true →
      playMove fuel s (.ok pp) =
        some ({ s with procs :=
                  s.procs.set i ({ p with
                    inp := p.inp ++
                      ("play ".toList ++ pp.Color ++ " ".toList ++ pp.Move) ++ ['\n'],
                    out := post.flatten }) },
              { status := 200,
                body := [("message", "Move played".toList),
                         ("response", TrimSpace (pre ++ [t]).flatten)] })) ∧
    (HasPrefix (TrimSpace (pre ++ [t]).flatten) ['?'] = true →
      playMove fuel s (.ok pp) =
        some ({ s with procs :=
                  s.procs.set i ({ p with
                    inp := p.inp ++
                      ("play ".toList ++ pp.Color ++ " ".toList ++ pp.Move) ++ ['\n'],
                    out := post.flatten }) },
              { status := 400,
                body := [("error", TrimSpace (pre ++ [t]).flatten)] })) := by
  have h := playMove_eq fuel s i p pp pre t post hon hin hout hp hl hpre ht hf
  constructor
  · intro hb
    rw [h, hasPrefix_not_both _ hb]
    rfl
  · intro hb
    rw [h, hb]
    rfl

/-- C6 on the scenario, the engine answering `=` to the move, and `? illegal move`. -/
theorem playMove_round_trip_witness :
    playMove 2 (scenario "=\n\n".toList) (.ok ⟨"b".toList, "d4".toList⟩) =
      some ({ scenario "=\n\n".toList with
              procs := [{ scenarioProc "=\n\n".toList with
                          inp := "boardsize 19\nkomi 7.5\nclear_board\nplay b d4\n".toList,
                          out := "\n".toList }] },
            { status := 200,
              body := [("message", "Move played".toList), ("response", "=".toList)] }) ∧
    playMove 2 (scenario "? illegal move\n\n".toList) (.ok ⟨"b".toList, "d4".toList⟩) =
      some ({ scenario "? illegal move\n\n".toList with
              procs := [{ scenarioProc "? illegal move\n\n".toList with
                          inp := "boardsize 19\nkomi 7.5\nclear_board\nplay b d4\n".toList,
                          out := "\n".toList }] },
            { status := 400, body := [("error", "? illegal move".toList)] }) :=
  ⟨(playMove_round_trip 2 (scenario "=\n\n".toList) 0 (scenarioProc "=\n\n".toList)
      ⟨"b".toList, "d4".toList⟩ ["\n".toList] "=\n".toList ["\n".toList]
      rfl rfl rfl rfl (by decide) (by decide) (by decide) (by decide)).1 (by decide),
   (playMove_round_trip 2 (scenario "? illegal move\n\n".toList) 0
      (scenarioProc "? illegal move\n\n".toList)
      ⟨"b".toList, "d4".toList⟩ ["\n".toList] "? illegal move\n".toList ["\n".toList]
      rfl rfl rfl rfl (by decide) (by decide) (by decide) (by decide)).2 (by decide)⟩

/-- C7, counterexample: in the scenario the engine answers `=`, a tab, `Q16`.  The
block does not begin with `?`; the move token of the specification is `Q16`;
`genMove` returns the tab with it. -/
theorem genMove_keeps_tab :
    Reachable (scenario "=\tQ16\n\n".toList) ∧
    sendGTP 2 (scenario "=\tQ16\n\n".toList) "genmove w".toList =
      some (exchanged (scenario "=\tQ16\n\n".toList) 0 (scenarioProc "=\tQ16\n\n".toList)
              "genmove w".toList "\n".toList,
            "=\tQ16".toList) ∧
    HasPrefix "=\tQ16".toList ['?'] = false ∧
    moveToken "=\tQ16".toList = "Q16".toList ∧
    genMove 2 (scenario "=\tQ16\n\n".toList) (.ok ⟨"w".toList⟩) =
      some (exchanged (scenario "=\tQ16\n\n".toList) 0 (scenarioProc "=\tQ16\n\n".toList)
              "genmove w".toList "\n".toList,
            moveGenerated "\tQ16".toList) ∧
    "\tQ16".toList ≠ moveToken "=\tQ16".toList :=
  ⟨scenario_reachable _, by decide⟩

/-- C7, as amended: with an active session and a well-formed request, on an engine
output whose first terminal line is `t` and whose trimmed block does not begin
with `?`, `genMove` answers 200 "Move generated" and the move is the block
without its leading and trailing characters `=` and space: the block is
`a ++ move ++ b` with `a` and `b` made of those two characters only and `move`
neither beginning nor ending with one; whenever the block is `a ++ tok ++ b` in
that way, the move is `tok`.  Tabs and newlines around the token stay. -/
theorem genMove_move_is_trimmed_block (fuel : Nat) (s : State) (i : Nat) (p : Proc)
    (gp : GenParams) (pre : List Str) (t : Str) (post : List Str)
    (hon : s.gameOn = true) (hin : s.stdin = some i) (hout : s.stdout = some i)
    (hp : s.procs[i]? = some p) (hl : lines p.out = pre ++ t :: post)
    (hpre : ∀ l ∈ pre, isTerminal l = false) (ht : isTerminal t = true)
    (hf : pre.length < fuel)
    (hok : HasPrefix (TrimSpace (pre ++ [t]).flatten) ['?'] = false) :
    ∃ move, genMove fuel s (.ok gp) =
        some (exchanged s i p ("genmove ".toList ++ gp.Color) post.flatten,
              moveGenerated move) ∧
      (∃ a b, TrimSpace (pre ++ [t]).flatten = a ++ move ++ b ∧
        (∀ c ∈ a, c = '=' ∨ c = ' ') ∧ (∀ c ∈ b, c = '=' ∨ c = ' ') ∧
        (∀ c, move.head? = some c → c ≠ '=' ∧ c ≠ ' ') ∧
        (∀ c, move.getLast? = some c → c ≠ '=' ∧ c ≠ ' ')) ∧
      (∀ a tok b, TrimSpace (pre ++ [t]).flatten = a ++ tok ++ b →
        (∀ c ∈ a, c = '=' ∨ c = ' ') → (∀ c ∈ b, c = '=' ∨ c = ' ') →
        (∀ c, tok.head? = some c → c ≠ '=' ∧ c ≠ ' ') →
        (∀ c, tok.getLast? = some c → c ≠ '=' ∧ c ≠ ' ') → move = tok) := by
  refine ⟨Trim (TrimSpace (pre ++ [t]).flatten) "= ".toList, ?_, ?_, ?_⟩
  · rw [genMove_eq fuel s i p gp pre t post hon hin hout hp hl hpre ht hf, hok]
    rfl
  · obtain ⟨a, b, e, ha, hb, hh, hlast⟩ :=
      trim_decompose (TrimSpace (pre ++ [t]).flatten) (fun c => "= ".toList.contains c)
    exact ⟨a, b, e, fun c hc => (cutset_contains c).mp (ha c hc),
      fun c hc => (cutset_contains c).mp (hb c hc),
      fun c hc => (cutset_not_contains c).mp (hh c hc),
      fun c hc => (cutset_not_contains c).mp (hlast c hc)⟩
  · intro a tok b e ha hb hh hlast
    unfold Trim
    rw [e]
    exact trim_eq_of a tok b _ (fun c hc => (cutset_contains c).mpr (ha c hc))
      (fun c hc => (cutset_contains c).mpr (hb c hc))
      (fun c hc => (cutset_not_contains c).mpr (hh c hc))
      (fun c hc => (cutset_not_contains c).mpr (hlast c hc))

/-- C7 on the scenario of the specification: the engine answers `= Q16`, the move is
`Q16`. -/
theorem genMove_move_is_trimmed_block_witness :
    genMove 2 (scenario "= Q16\n\n".toList) (.ok ⟨"w".toList⟩) =
      some (exchanged (scenario "= Q16\n\n".toList) 0 (scenarioProc "= Q16\n\n".toList)
              "genmove w".toList "\n".toList,
            moveGenerated "Q16".toList) := by
  obtain ⟨move, hg, _, huniq⟩ :=
    genMove_move_is_trimmed_block 2 (scenario "= Q16\n\n".toList) 0
      (scenarioProc "= Q16\n\n".toList) ⟨"w".toList⟩
      ["\n".toList] "= Q16\n".toList ["\n".toList] rfl rfl rfl rfl (by decide) (by decide)
      (by decide) (by decide) (by decide)
  have hm : move = "Q16".toList :=
    huniq "= ".toList "Q16".toList [] (by decide) (by decide) (by decide) (by decide)
      (by decide)
  rw [hg, hm]
  decide

/-- C8, counterexample: the engine answers `boardsize 0` with the failure line
`? unacceptable size`; `startGame` answers 200 "Game started" and the session
is active.  And `startGame` on the active session of the scenario fails while
the session stays active. -/
theorem session_active_after_rejected_setup :
    sendGTP 1 (launched State.init zeroParams rejectingLaunch) (boardsizeCmd 0) =
      some (exchanged (launched State.init zeroParams rejectingLaunch) 0
              { newCmd zeroParams rejectingLaunch with started := true }
              "boardsize 0".toList "\n= \n\n= \n\n".toList,
            "? unacceptable size".toList) ∧
    startGame 2 State.init (.ok zeroParams) rejectingLaunch =
      some (started State.init zeroParams rejectingLaunch "\n".toList, gameStarted) ∧
    (started State.init zeroParams rejectingLaunch "\n".toList).gameOn = true ∧
    startGame 2 (scenario []) (.ok demoParams) (scenarioLaunch []) =
      some (scenario [], errorReply 400 "Game already running".toList) ∧
    (scenario []).gameOn = true := by
  decide

/-- C8, as amended: in every reachable state with an active session the three handles
designate one process, which was started and has not been killed, and the
input of that process begins with the three setup lines, in order and with
nothing between them: `boardsize N`, `komi K` with `K` printed with one
decimal, `clear_board`.  And when `startGame` returns from a state with no
active session, either it answers 200 "Game started", the session is active on
a new process whose input is exactly the three setup lines of the request, and
the engine output began with three replies, each ended by a terminal line of
either marker (the replies are discarded), after which nothing was read; or it
answers an error and no session is active. -/
theorem session_setup_invariant :
    (∀ s : State, Reachable s → s.gameOn = true →
      ∃ k p, s.katago = some k ∧ s.stdin = some k ∧ s.stdout = some k ∧
        s.procs[k]? = some p ∧ p.started = true ∧ p.killed = false ∧
        ∃ (n : Int) (komi : KomiValue) (later : Str),
          p.inp = "boardsize ".toList ++ (toString n).toList ++ ['\n'] ++
            ("komi ".toList ++ (if komi.negative then ['-'] else []) ++
              (toString (komi.tenths / 10)).toList ++ ['.'] ++
              (toString (komi.tenths % 10)).toList) ++ ['\n'] ++
            "clear_board".toList ++ ['\n'] ++ later ∧
          lines p.inp =
            ("boardsize ".toList ++ (toString n).toList ++ ['\n']) ::
            ("komi ".toList ++ (if komi.negative then ['-'] else []) ++
              (toString (komi.tenths / 10)).toList ++ ['.'] ++
              (toString (komi.tenths % 10)).toList ++ ['\n']) ::
            ("clear_board".toList ++ ['\n']) :: lines later) ∧
    (∀ (fuel : Nat) (s s1 : State) (body : Except Str StartParams) (env : Launch)
        (r : Reply), s.gameOn = false → startGame fuel s body env = some (s1, r) →
      (∃ params pre1 t1 pre2 t2 pre3 t3 post,
        body = .ok params ∧
        r = { status := 200, body := [("message", "Game started".toList)] } ∧
        lines env.output = pre1 ++ t1 :: (pre2 ++ t2 :: (pre3 ++ t3 :: post)) ∧
        (∀ l ∈ pre1 ++ pre2 ++ pre3, isTerminal l = false) ∧
        isTerminal t1 = true ∧ isTerminal t2 = true ∧ isTerminal t3 = true ∧
        s1.gameOn = true ∧ s1.katago = some s.procs.length ∧
        s1.stdin = some s.procs.length ∧ s1.stdout = some s.procs.length ∧
        s1.procs = s.procs ++
          [{ args := ["./katago".toList, "gtp".toList, "-model".toList, params.Model,
                      "-config".toList, params.Config],
             started := true, killed := false,
             inp := "boardsize ".toList ++ (toString params.BoardSize).toList ++ ['\n'] ++
               ("komi ".toList ++ (if params.Komi.negative then ['-'] else []) ++
                 (toString (params.Komi.tenths / 10)).toList ++ ['.'] ++
                 (toString (params.Komi.tenths % 10)).toList) ++ ['\n'] ++
               "clear_board".toList ++ ['\n'],
             out := post.flatten }]) ∨
      (r.status ≠ 200 ∧ s1.gameOn = false)) := by
  constructor
  · intro s hs hon
    obtain ⟨k, p, hk, hin, hout, hp, hst, hkl, _, n, komi, later, hpre⟩ :=
      (reachable_inv s hs).2 hon
    refine ⟨k, p, hk, hin, hout, hp, hst, hkl, n, komi, later, ?_, ?_⟩
    · rw [← hpre]
      simp [setupText, boardsizeCmd, komiCmd, KomiValue.format]
    · rw [← hpre, lines_setupText]
      simp [boardsizeCmd, komiCmd, KomiValue.format]
  · intro fuel s s1 body env r hoff h
    cases body with
    | error e =>
      simp [startGame, hoff] at h
      right
      rw [← h.1, ← h.2]
      exact ⟨by simp [errorReply], hoff⟩
    | ok params =>
      cases h1 : env.stdinPipeErr with
      | some e =>
        simp [startGame, hoff, h1] at h
        right
        rw [← h.1, ← h.2]
        exact ⟨by simp [errorReply], rfl⟩
      | none =>
        cases h2 : env.stdoutPipeErr with
        | some e =>
          simp [startGame, hoff, h1, h2] at h
          right
          rw [← h.1, ← h.2]
          exact ⟨by simp [errorReply], rfl⟩
        | none =>
          cases h3 : env.startErr with
          | some e =>
            simp [startGame, hoff, h1, h2, h3] at h
            right
            rw [← h.1, ← h.2]
            exact ⟨by simp [errorReply], rfl⟩
          | none =>
            obtain ⟨x1, o1, x2, o2, x3, o3, hr1, hr2, hr3, e1, er⟩ :=
              startGame_launch_some fuel s s1 params env r hoff h1 h2 h3 h
            obtain ⟨pre1, t1, pre2, t2, pre3, t3, post, hl, hpre, ht1, ht2, ht3, ho⟩ :=
              three_replies fuel _ _ _ _ _ _ _ hr1 hr2 hr3
            left
            refine ⟨params, pre1, t1, pre2, t2, pre3, t3, post, rfl, er, hl, hpre,
              ht1, ht2, ht3, ?_, ?_, ?_, ?_, ?_⟩
            · rw [e1]; rfl
            · rw [e1]; rfl
            · rw [e1]; rfl
            · rw [e1]; rfl
            · rw [e1, ho]
              simp [started, startedProc, newCmd, setupText, boardsizeCmd, komiCmd,
                KomiValue.format]

/-- C8 on the scenario: the input of the engine after the start, and the three replies
that the start has read. -/
theorem session_setup_invariant_witness :
    (∃ k p, (scenario []).katago = some k ∧ (scenario []).stdin = some k ∧
        (scenario []).stdout = some k ∧
        (scenario []).procs[k]? = some p ∧ p.started = true ∧ p.killed = false ∧
        ∃ (n : Int) (komi : KomiValue) (later : Str),
          p.inp = "boardsize ".toList ++ (toString n).toList ++ ['\n'] ++
            ("komi ".toList ++ (if komi.negative then ['-'] else []) ++
              (toString (komi.tenths / 10)).toList ++ ['.'] ++
              (toString (komi.tenths % 10)).toList) ++ ['\n'] ++
            "clear_board".toList ++ ['\n'] ++ later ∧
          lines p.inp =
            ("boardsize ".toList ++ (toString n).toList ++ ['\n']) ::
            ("komi ".toList ++ (if komi.negative then ['-'] else []) ++
              (toString (komi.tenths / 10)).toList ++ ['.'] ++
              (toString (komi.tenths % 10)).toList ++ ['\n']) ::
            ("clear_board".toList ++ ['\n']) :: lines later) ∧
    (scenarioProc []).inp = "boardsize 19\nkomi 7.5\nclear_board\n".toList ∧
    (∃ pre1 t1 pre2 t2 pre3 t3 post,
      lines (scenarioLaunch []).output = pre1 ++ t1 :: (pre2 ++ t2 :: (pre3 ++ t3 :: post)) ∧
      isTerminal t1 = true ∧ isTerminal t2 = true ∧ isTerminal t3 = true ∧
      (scenario []).procs = [{ scenarioProc [] with out := post.flatten }]) := by
  refine ⟨session_setup_invariant.1 (scenario []) (scenario_reachable []) rfl, by decide, ?_⟩
  rcases session_setup_invariant.2 2 State.init (scenario []) (.ok demoParams)
    (scenarioLaunch []) { status := 200, body := [("message", "Game started".toList)] }
    rfl rfl with h | h
  · obtain ⟨params, pre1, t1, pre2, t2, pre3, t3, post, hb, _, hl, _, ht1, ht2, ht3,
      _, _, _, _, hprocs⟩ := h
    have hpar : params = demoParams := by
      injection hb with hb
      exact hb.symm
    subst hpar
    refine ⟨pre1, t1, pre2, t2, pre3, t3, post, hl, ht1, ht2, ht3, ?_⟩
    rw [hprocs]
    rfl
  · exact absurd rfl h.1

/-- C9, what the code does: when the engine output ends before any terminal line,
`sendGTP` returns nothing, neither a block nor a failure, whatever the number
of loop iterations allowed, and so do `playMove` and `genMove`: at the end of
the output every `ReadString` yields the empty line, which does not stop the
loop. -/
theorem sendGTP_spins_at_eof (fuel : Nat) (s : State) (i : Nat) (p : Proc) (cmd : Str)
    (pp : PlayParams) (gp : GenParams)
    (hon : s.gameOn = true) (hin : s.stdin = some i) (hout : s.stdout = some i)
    (hp : s.procs[i]? = some p) (hno : ∀ l ∈ lines p.out, isTerminal l = false) :
    sendGTP fuel s cmd = none ∧ playMove fuel s (.ok pp) = none ∧
      genMove fuel s (.ok gp) = none := by
  have h : ∀ c, sendGTP fuel s c = none := fun c => sendGTP_silent fuel s c i p hin hout hp hno
  refine ⟨h cmd, ?_, ?_⟩
  · simp [playMove, hon, h]
  · simp [genMove, hon, h]

/-- C9 on the scenario, the engine having exited after the setup. -/
theorem sendGTP_spins_at_eof_witness :
    sendGTP 1000 (scenario []) "play b d4".toList = none ∧
      playMove 1000 (scenario []) (.ok ⟨"b".toList, "d4".toList⟩) = none ∧
      genMove 1000 (scenario []) (.ok ⟨"w".toList⟩) = none :=
  sendGTP_spins_at_eof 1000 (scenario []) 0 (scenarioProc []) "play b d4".toList
    ⟨"b".toList, "d4".toList⟩ ⟨"w".toList⟩ rfl rfl rfl rfl (by decide)

/-- C10, counterexample: in the scenario, on the reply `x`, `? illegal move` the
terminal line starts with `?`, and `playMove` and `genMove` answer 200; on the
reply ` ?`, `= ok` the terminal line starts with `=`, and `playMove` answers the
error 400. -/
theorem rejection_ignores_terminal_line :
    Reachable (scenario "x\n? illegal move\n\n".toList) ∧
    Reachable (scenario " ?\n= ok\n\n".toList) ∧
    lines (scenarioProc "x\n? illegal move\n\n".toList).out =
      ["\n".toList, "x\n".toList, "? illegal move\n".toList, "\n".toList] ∧
    isTerminal "\n".toList = false ∧ isTerminal "x\n".toList = false ∧
    playMove 3 (scenario "x\n? illegal move\n\n".toList) (.ok ⟨"b".toList, "d4".toList⟩) =
      some (exchanged (scenario "x\n? illegal move\n\n".toList) 0
              (scenarioProc "x\n? illegal move\n\n".toList) "play b d4".toList "\n".toList,
            movePlayed "x\n? illegal move".toList) ∧
    genMove 3 (scenario "x\n? illegal move\n\n".toList) (.ok ⟨"w".toList⟩) =
      some (exchanged (scenario "x\n? illegal move\n\n".toList) 0
              (scenarioProc "x\n? illegal move\n\n".toList) "genmove w".toList "\n".toList,
            moveGenerated "x\n? illegal move".toList) ∧
    lines (scenarioProc " ?\n= ok\n\n".toList).out =
      ["\n".toList, " ?\n".toList, "= ok\n".toList, "\n".toList] ∧
    isTerminal " ?\n".toList = false ∧
    playMove 3 (scenario " ?\n= ok\n\n".toList) (.ok ⟨"b".toList, "d4".toList⟩) =
      some (exchanged (scenario " ?\n= ok\n\n".toList) 0
              (scenarioProc " ?\n= ok\n\n".toList) "play b d4".toList "\n".toList,
            errorReply 400 "?\n= ok".toList) :=
  ⟨scenario_reachable _, scenario_reachable _, by decide⟩

/-- C10, as amended: with an active session and a well-formed request, on an engine
output whose first terminal line is `t` (after the lines `pre`), `playMove` and
`genMove` answer the error 400 carrying the block exactly when the trimmed
block, lines of `pre` included, begins with `?`, and answer 200 otherwise; when
the lines of `pre` hold white space only, the block begins with `?` exactly
when the terminal line does. -/
theorem rejection_follows_block_marker (fuel : Nat) (s : State) (i : Nat) (p : Proc)
    (pp : PlayParams) (gp : GenParams) (pre : List Str) (t : Str) (post : List Str)
    (hon : s.gameOn = true) (hin : s.stdin = some i) (hout : s.stdout = some i)
    (hp : s.procs[i]? = some p) (hl : lines p.out = pre ++ t :: post)
    (hpre : ∀ l ∈ pre, isTerminal l = false) (ht : isTerminal t = true)
    (hf : pre.length < fuel) :
    playMove fuel s (.ok pp) =
      some (exchanged s i p (playCmd pp.Color pp.Move) post.flatten,
            if HasPrefix (TrimSpace (pre ++ [t]).flatten) ['?'] then
              errorReply 400 (TrimSpace (pre ++ [t]).flatten)
            else movePlayed (TrimSpace (pre ++ [t]).flatten)) ∧
    genMove fuel s (.ok gp) =
      some (exchanged s i p (genmoveCmd gp.Color) post.flatten,
            if HasPrefix (TrimSpace (pre ++ [t]).flatten) ['?'] then
              errorReply 400 (TrimSpace (pre ++ [t]).flatten)
            else moveGenerated (Trim (TrimSpace (pre ++ [t]).flatten) "= ".toList)) ∧
    ((∀ l ∈ pre, isBlank l = true) →
      HasPrefix (TrimSpace (pre ++ [t]).flatten) ['?'] = HasPrefix t ['?']) := by
  refine ⟨playMove_eq fuel s i p pp pre t post hon hin hout hp hl hpre ht hf,
    genMove_eq fuel s i p gp pre t post hon hin hout hp hl hpre ht hf, ?_⟩
  intro hblank
  cases t with
  | nil => simp [isTerminal] at ht
  | cons m u =>
    have e : (pre ++ [m :: u]).flatten = pre.flatten ++ m :: u := by simp
    rw [e, trimSpace_block _ m u ht, trimLeft_all _ _ (flatten_all_blank pre hblank)]
    simp [hasPrefix_cons]

/-- C10 on the scenario, the engine answering `? illegal move` after a blank line. -/
theorem rejection_follows_block_marker_witness :
    playMove 2 (scenario "? illegal move\n\n".toList) (.ok ⟨"b".toList, "d4".toList⟩) =
      some (exchanged (scenario "? illegal move\n\n".toList) 0
              (scenarioProc "? illegal move\n\n".toList)
              (playCmd "b".toList "d4".toList) ["\n".toList].flatten,
            if HasPrefix (TrimSpace (["\n".toList] ++ ["? illegal move\n".toList]).flatten)
                ['?'] then
              errorReply 400 (TrimSpace (["\n".toList] ++ ["? illegal move\n".toList]).flatten)
            else movePlayed (TrimSpace (["\n".toList] ++ ["? illegal move\n".toList]).flatten)) ∧
    genMove 2 (scenario "? illegal move\n\n".toList) (.ok ⟨"w".toList⟩) =
      some (exchanged (scenario "? illegal move\n\n".toList) 0
              (scenarioProc "? illegal move\n\n".toList)
              (genmoveCmd "w".toList) ["\n".toList].flatten,
            if HasPrefix (TrimSpace (["\n".toList] ++ ["? illegal move\n".toList]).flatten)
                ['?'] then
              errorReply 400 (TrimSpace (["\n".toList] ++ ["? illegal move\n".toList]).flatten)
            else moveGenerated
              (Trim (TrimSpace (["\n".toList] ++ ["? illegal move\n".toList]).flatten)
                "= ".toList)) ∧
    ((∀ l ∈ ["\n".toList], isBlank l = true) →
      HasPrefix (TrimSpace (["\n".toList] ++ ["? illegal move\n".toList]).flatten) ['?'] =
        HasPrefix "? illegal move\n".toList ['?']) :=
  rejection_follows_block_marker 2 (scenario "? illegal move\n\n".toList) 0
    (scenarioProc "? illegal move\n\n".toList) ⟨"b".toList, "d4".toList⟩
    ⟨"w".toList⟩ ["\n".toList] "? illegal move\n".toList ["\n".toList] rfl rfl rfl rfl
    (by decide) (by decide) (by decide) (by decide)

end KatagoHttp
